import Mathlib

/-!
Verification of the completion-review orchestration hook.

This file gives a shallow embedding, in Lean 4, of the core of the
repository (completion orchestrator, todo-state detector, quota monitor,
debate orchestrator, verdict parser, state manager), translated from the
Python sources:
  adapters/base.py, todo_state_detector.py, state_manager.py,
  quota_monitor.py, debate_orchestrator.py, completion_orchestrator.py.

Modelling conventions:
- Python dictionaries persisted as JSON are modelled as Lean structures
  whose fields are `Option`-valued: `none` models an absent key, and the
  Python `d.get(k, default)` idiom becomes `Option.getD`.
- Wall-clock timestamps (`datetime.now()`) are modelled as integers in
  microseconds, the resolution of Python `datetime`; `timedelta(minutes=30)`
  becomes the integer constant `thirtyMinutes`.
- `str.lower()` / `str.upper()` are modelled on the ASCII range, which is
  the only range exercised by the keyword tables of the source.
- Numeric review scores and weights are modelled as exact rationals; the
  Python float computations of `_weighted_vote` are exact on every input
  appearing in a theorem below.
- External I/O (vendor transports, the self-review prompt text, the
  transcript reader) is out of scope per the spec and enters the model as
  explicit environment parameters.
-/

/-! ## ASCII case helpers (model of str.lower / str.upper) -/

/-- Lower-case one ASCII character, as Python `str.lower` does on the
ASCII range. -/
def asciiLowerChar (c : Char) : Char :=
  if 65 ≤ c.toNat ∧ c.toNat ≤ 90 then Char.ofNat (c.toNat + 32) else c

/-- Upper-case one ASCII character, as Python `str.upper` does on the
ASCII range. -/
def asciiUpperChar (c : Char) : Char :=
  if 97 ≤ c.toNat ∧ c.toNat ≤ 122 then Char.ofNat (c.toNat - 32) else c

/-- Model of Python `s.lower()` (ASCII range). -/
def asciiLower (s : String) : String :=
  ⟨s.data.map asciiLowerChar⟩

/-- Model of Python `s.upper()` (ASCII range). -/
def asciiUpper (s : String) : String :=
  ⟨s.data.map asciiUpperChar⟩

/-- Does the list start with the given needle? (helper for substring
containment). -/
def charPrefix : List Char → List Char → Bool
  | [], _ => true
  | _ :: _, [] => false
  | a :: as, b :: bs => a == b && charPrefix as bs

/-- Substring search on character lists. -/
def containsSub (needle : List Char) : List Char → Bool
  | [] => charPrefix needle []
  | c :: cs => charPrefix needle (c :: cs) || containsSub needle cs

/-- Model of the Python containment test `needle in hay` on strings. -/
def strContains (hay needle : String) : Bool :=
  containsSub needle.data hay.data

/-! ## Severity (adapters/base.py, class Severity) -/

/-- Severity enumeration from adapters/base.py. -/
inductive Severity where
  | OK
  | LOW
  | MEDIUM
  | HIGH
  | CRITICAL
deriving DecidableEq

/-- Python `Severity.value` (the enum member's string value). -/
def Severity.value : Severity → String
  | .OK => "OK"
  | .LOW => "LOW"
  | .MEDIUM => "MEDIUM"
  | .HIGH => "HIGH"
  | .CRITICAL => "CRITICAL"

/-- Position of a severity in the ordered list
`[OK, LOW, MEDIUM, HIGH, CRITICAL]` used by `Severity.__lt__`,
`_check_consensus` and `needs_debate`. -/
def Severity.idx : Severity → Nat
  | .OK => 0
  | .LOW => 1
  | .MEDIUM => 2
  | .HIGH => 3
  | .CRITICAL => 4

/-- Inverse of `Severity.idx` on `[0,4]`; `ordered[i]` list indexing from
the source (indices outside `[0,4]` never arise there). -/
def idxToSeverity : Nat → Severity
  | 0 => .OK
  | 1 => .LOW
  | 2 => .MEDIUM
  | 3 => .HIGH
  | _ => .CRITICAL

/-- Model of `Severity.from_string`: upper-case the input, match an enum
value, fall back to `OK` on `ValueError`. -/
def Severity.fromString (value : String) : Severity :=
  if asciiUpper value = "OK" then .OK
  else if asciiUpper value = "LOW" then .LOW
  else if asciiUpper value = "MEDIUM" then .MEDIUM
  else if asciiUpper value = "HIGH" then .HIGH
  else if asciiUpper value = "CRITICAL" then .CRITICAL
  else .OK

/-- Python `max` over a list of severities using `Severity.__lt__`
(first maximal element wins; the `default` argument covers `[]`). -/
def sevMax (dflt : Severity) : List Severity → Severity
  | [] => dflt
  | s :: rest => rest.foldl (fun a b => if a.idx < b.idx then b else a) s

/-! ## Issue and ReviewResult (adapters/base.py) -/

/-- Issue dataclass from adapters/base.py.  Python stores whatever JSON
value arrived in `description`; the orchestrator only ever renders it into
f-strings, so the model stores the rendered string. -/
structure Issue where
  description : String
  severity : Severity
  location : Option String := none
  suggestion : Option String := none
deriving DecidableEq

/-- ReviewResult dataclass from adapters/base.py (the spec's Verdict). -/
structure ReviewResult where
  adapter_name : String
  severity : Severity
  issues : List Issue
  raw_response : String
  success : Bool := true
  error : Option String := none
  duration_ms : Int := 0
  is_self_review : Bool := false
deriving DecidableEq

/-! ## JSON values (model of what json.loads produces) -/

/-- JSON values as produced by Python `json.loads`. -/
inductive Json where
  | null
  | bool (b : Bool)
  | num (q : ℚ)
  | str (s : String)
  | arr (items : List Json)
  | obj (fields : List (String × Json))

/-- First-match association lookup: Python `dict.get` (JSON object keys
are unique after json.loads, so first match is the match). -/
def lookupField : List (String × Json) → String → Option Json
  | [], _ => none
  | (k, v) :: rest, key => if k = key then some v else lookupField rest key

/-- Keys of a JSON object, in order. -/
def jsonKeys : Json → List String
  | .obj fields => fields.map (·.1)
  | _ => []

/-- Rendering of a JSON value as Python `str()` renders it when it is
interpolated into an f-string.  Exact for strings, null, booleans and
integers — the only payloads any theorem below evaluates; container
renderings are abbreviated and never relied upon. -/
def pyStr : Json → String
  | .str s => s
  | .null => "None"
  | .bool true => "True"
  | .bool false => "False"
  | .num q => if q.den = 1 then toString q.num else toString q
  | .arr _ => "[...]"
  | .obj _ => "\x7b...\x7d"

/-- Python truthiness for an optional string field
(`if issue.suggestion:` is false for both None and the empty string). -/
def pyTruthyStr : Option String → Bool
  | none => false
  | some s => !s.isEmpty

/-! ## Verdict parser (adapters/base.py, LLMAdapter.parse_response and
LLMAdapter._parse_text_response)

`parse_response` first tries to extract a fenced JSON block with a regex,
then runs `json.loads` on the (possibly extracted) text.  The model takes
that post-extraction text together with the outcome of `json.loads` on it
(`none` models a `json.JSONDecodeError`).  The Python `try` catches only
`json.JSONDecodeError` and `KeyError`; any other exception escapes, which
the model renders as `Except.error` carrying the Python exception name. -/

/-- Keyword fallback `_parse_text_response`: scan the lowered reply for
severity keywords, highest severity first; emit one synthetic issue. -/
def parseTextResponse (name response : String) : ReviewResult :=
  let rl := asciiLower response
  let severity :=
    if ["critical", "심각", "보안취약"].any (fun w => strContains rl w) then Severity.CRITICAL
    else if ["high", "높음", "버그", "오류"].any (fun w => strContains rl w) then Severity.HIGH
    else if ["medium", "중간", "개선"].any (fun w => strContains rl w) then Severity.MEDIUM
    else if ["low", "낮음", "사소"].any (fun w => strContains rl w) then Severity.LOW
    else Severity.OK
  { adapter_name := name
    severity := severity
    issues := [{ description := response, severity := severity }]
    raw_response := response
    success := true }

/-- Model of `Optional[str]` fields of an Issue: `i.get(k)` yields Python
`None` both when the key is absent and when it is JSON null. -/
def optStrField (fields : List (String × Json)) (key : String) : Option String :=
  match lookupField fields key with
  | none => none
  | some .null => none
  | some v => some (pyStr v)

/-- Parse one entry of `data["issues"]`.  A non-object entry makes Python
call `.get` on it, raising AttributeError; a non-string severity value
makes `Severity.from_string` call `.upper()` on it, likewise. -/
def parseIssueItem (item : Json) : Except String Issue :=
  match item with
  | .obj fields =>
    match (lookupField fields "severity").getD (.str "OK") with
    | .str s =>
      Except.ok
        { description := pyStr ((lookupField fields "description").getD (.str ""))
          severity := Severity.fromString s
          location := optStrField fields "location"
          suggestion := optStrField fields "suggestion" }
    | _ => Except.error "AttributeError"
  | _ => Except.error "AttributeError"

/-- Parse the whole `issues` list left to right, propagating the first
exception, as the Python list comprehension does. -/
def parseIssueList : List Json → Except String (List Issue)
  | [] => Except.ok []
  | item :: rest => do
    let i ← parseIssueItem item
    let is ← parseIssueList rest
    Except.ok (i :: is)

/-- Model of `LLMAdapter.parse_response`.  `decoded` is the result of
`json.loads` on `response` (the post-extraction reply text); `none` is a
decode error, answered by the keyword fallback.  Iterating a non-sequence
`issues` value raises TypeError; iterating a non-empty string or dict
yields non-dict elements whose `.get` raises AttributeError (empty ones
yield an empty issue list). -/
def parseResponse (name response : String) (decoded : Option Json) :
    Except String ReviewResult :=
  match decoded with
  | none => Except.ok (parseTextResponse name response)
  | some data =>
    match data with
    | .obj fields =>
      match (lookupField fields "severity").getD (.str "OK") with
      | .str s =>
        let severity := Severity.fromString s
        let issuesVal := (lookupField fields "issues").getD (.arr [])
        let parsedIssues : Except String (List Issue) :=
          match issuesVal with
          | .arr items => parseIssueList items
          | .str s2 => if s2.isEmpty then Except.ok [] else Except.error "AttributeError"
          | .obj kvs => if kvs.isEmpty then Except.ok [] else Except.error "AttributeError"
          | _ => Except.error "TypeError"
        match parsedIssues with
        | Except.ok issues =>
          Except.ok
            { adapter_name := name
              severity := severity
              issues := issues
              raw_response := response
              success := true }
        | Except.error e => Except.error e
      | _ => Except.error "AttributeError"
    | _ => Except.error "AttributeError"

/-- Shape of a decoded reply on which `parse_response` completes without
an exception: a JSON object whose `severity`, if present, is a string, and
whose `issues`, if present, is an array of such objects (or a vacuously
iterable empty string / empty object). -/
def wellShapedIssue : Json → Bool
  | .obj fields =>
    match lookupField fields "severity" with
    | none => true
    | some (.str _) => true
    | some _ => false
  | _ => false

/-- Well-shapedness of a whole decoded reply (see `wellShapedIssue`). -/
def wellShaped : Json → Bool
  | .obj fields =>
    (match lookupField fields "severity" with
     | none => true
     | some (.str _) => true
     | some _ => false) &&
    (match lookupField fields "issues" with
     | none => true
     | some (.arr items) => items.all wellShapedIssue
     | some (.str s) => s.isEmpty
     | some (.obj kvs) => kvs.isEmpty
     | some _ => false)
  | _ => false

/-! ## Quota monitor (quota_monitor.py) -/

/-- QuotaStatus enumeration. -/
inductive QuotaStatus where
  | AVAILABLE
  | LOW
  | EXHAUSTED
  | UNKNOWN
deriving DecidableEq

/-- AdapterQuota dataclass.  Timestamps are integers (microseconds of
wall-clock time, the resolution of Python datetime). -/
structure AdapterQuota where
  adapter_name : String
  status : QuotaStatus
  last_success : Option Int := none
  last_failure : Option Int := none
  failure_count : Nat := 0
  success_count : Nat := 0
  consecutive_failures : Nat := 0
  cooldown_until : Option Int := none
deriving DecidableEq

/-- The in-memory `self.quotas` dict: insertion-ordered `name → quota`. -/
def QuotaState : Type := List (String × AdapterQuota)

/-- Dict lookup on the quota map. -/
def quotaLookup : QuotaState → String → Option AdapterQuota
  | [], _ => none
  | (k, v) :: rest, key => if k = key then some v else quotaLookup rest key

/-- In-place dict update: replace the value under an existing key,
append a new key at the end (Python dict semantics). -/
def quotaSet : QuotaState → String → AdapterQuota → QuotaState
  | [], key, q => [(key, q)]
  | (k, v) :: rest, key, q =>
    if k = key then (k, q) :: rest else (k, v) :: quotaSet rest key q

/-- Python `timedelta(minutes=30)` in microseconds. -/
def thirtyMinutes : Int := 30 * 60 * 1000000

/-- Keyword table of `record_failure`. -/
def quotaKeywords : List String := ["quota", "limit", "exceeded", "rate", "429", "exhausted"]

/-- The quota-error classification of `record_failure`:
`any(kw in error.lower() for kw in quota_keywords)`. -/
def isQuotaError (error : String) : Bool :=
  quotaKeywords.any (fun kw => strContains (asciiLower error) kw)

/-- Model of `QuotaMonitor.record_success` (the `_save_state` persistence
is the identity on this in-memory view). -/
def recordSuccess (s : QuotaState) (adapter_name : String) (now : Int) : QuotaState :=
  let q0 := (quotaLookup s adapter_name).getD
    { adapter_name := adapter_name, status := .AVAILABLE }
  quotaSet s adapter_name
    { q0 with
      success_count := q0.success_count + 1
      consecutive_failures := 0
      last_success := some now
      status := .AVAILABLE
      cooldown_until := none }

/-- Model of `QuotaMonitor.record_failure`. -/
def recordFailure (s : QuotaState) (adapter_name error : String) (now : Int) :
    QuotaState :=
  let q0 := (quotaLookup s adapter_name).getD
    { adapter_name := adapter_name, status := .UNKNOWN }
  let q1 := { q0 with
    failure_count := q0.failure_count + 1
    consecutive_failures := q0.consecutive_failures + 1
    last_failure := some now }
  let q2 :=
    if isQuotaError error || q1.consecutive_failures ≥ 3 then
      { q1 with status := .EXHAUSTED, cooldown_until := some (now + thirtyMinutes) }
    else if q1.consecutive_failures ≥ 2 then
      { q1 with status := .LOW }
    else q1
  quotaSet s adapter_name q2

/-- Model of `QuotaMonitor.is_available`: returns the boolean together
with the (possibly mutated) quota map — an elapsed cooldown is cleared in
place before the status test. -/
def isAvailable (s : QuotaState) (adapter_name : String) (now : Int) :
    Bool × QuotaState :=
  match quotaLookup s adapter_name with
  | none => (true, s)
  | some q =>
    match q.cooldown_until with
    | some cooldown_end =>
      if now < cooldown_end then (false, s)
      else
        let q' := { q with
          status := .UNKNOWN
          consecutive_failures := 0
          cooldown_until := none }
        (q'.status ≠ .EXHAUSTED, quotaSet s adapter_name q')
    | none => (q.status ≠ .EXHAUSTED, s)

/-- Model of `QuotaMonitor.get_available_adapters`: filter by
`is_available`, threading its in-place cooldown clearing. -/
def getAvailableAdapters (s : QuotaState) (adapter_names : List String) (now : Int) :
    List String × QuotaState :=
  adapter_names.foldl
    (fun acc name =>
      let r := isAvailable acc.2 name now
      (if r.1 then acc.1 ++ [name] else acc.1, r.2))
    ([], s)

/-! ## Session todo state (state_manager.py and todo_state_detector.py)

The on-disk JSON under `state/<session>_todo.json` is modelled per session
as a record of optional fields — exactly the keys this program ever reads
or writes.  `save_todo_state` writes the caller's dict wholesale (plus an
`updated_at` stamp), so persisting replaces the whole record. -/

/-- One todo entry of the hook input (`{content, status}`). -/
structure Todo where
  content : String
  status : String
deriving DecidableEq

/-- The persisted per-session todo state file. -/
structure TodoFile where
  all_completed : Option Bool := none
  total : Option Nat := none
  completed : Option Nat := none
  todos_snapshot : Option (List (String × String)) := none
  review_count : Option Nat := none
  last_review_at : Option Int := none
  updated_at : Option Int := none
deriving DecidableEq

/-- Result record of `TodoStateDetector.detect_completion` (dataclass
TodoState). -/
structure TodoState where
  all_completed : Bool
  just_completed : Bool
  total : Nat
  completed : Nat
deriving DecidableEq

/-- Model of `StateManager.get_completion_review_count`. -/
def getCompletionReviewCount (f : TodoFile) : Nat :=
  f.review_count.getD 0

/-- Model of `StateManager.increment_completion_review_count`: read the
stored record, bump `review_count`, stamp `last_review_at`, write back. -/
def incrementCompletionReviewCount (f : TodoFile) (now : Int) : TodoFile :=
  { f with
    review_count := some (f.review_count.getD 0 + 1)
    last_review_at := some now }

/-- Model of `TodoStateDetector.detect_completion`.  An empty todo list
returns early without touching the store.  Otherwise the counts are
computed, `just_completed` is the edge test against the previous record,
and `save_todo_state` replaces the record with the freshly built dict
(which carries no `review_count` or `last_review_at` key) plus the
`updated_at` stamp. -/
def detectCompletion (st : TodoFile) (todos : List Todo) (now : Int) :
    TodoState × TodoFile :=
  if todos.isEmpty then
    ({ all_completed := false, just_completed := false, total := 0, completed := 0 }, st)
  else
    let total := todos.length
    let completed := (todos.filter (fun t => t.status == "completed")).length
    let all_completed := completed == total
    let prev_all_completed := st.all_completed.getD false
    let just_completed := all_completed && !prev_all_completed
    let newFile : TodoFile :=
      { all_completed := some all_completed
        total := some total
        completed := some completed
        todos_snapshot := some (todos.map (fun t => (t.content, t.status)))
        updated_at := some now }
    ({ all_completed := all_completed
       just_completed := just_completed
       total := total
       completed := completed }, newFile)

/-! ## Configuration (security.py load_config and the option reads
scattered through the orchestrators)

`load_config` returns the parsed config file, or `{}` when the file is
missing or corrupt.  The model flattens the nested dictionaries into one
record of optional entries; `none` throughout models the missing file. -/

/-- Recognized configuration options; field names note their JSON path. -/
structure Config where
  enabled_adapters : Option (List String) := none
  include_self_review : Option Bool := none
  include_external_review : Option Bool := none
  use_subagent : Option Bool := none
  max_reviews : Option Int := none
  debate_enabled : Option Bool := none
  debate_max_rounds : Option Nat := none
  trigger_on_disagreement : Option Bool := none
  trigger_on_high_severity : Option Bool := none
  weights : Option (List (String × ℚ)) := none

/-- The `{}` that `load_config` returns when the config file is missing
(or present but unreadable). -/
def missingConfig : Config := {}

/-- Dict lookup for `conflict_resolution.weights`. -/
def weightLookup : List (String × ℚ) → String → Option ℚ
  | [], _ => none
  | (k, v) :: rest, key => if k = key then some v else weightLookup rest key

/-! ## Adapters as the orchestrator sees them

The vendor transports are out of scope; an external adapter enters the
model as its stable name, its local `is_available()` answer, and its
`review` behaviour as a function from the prompt it is sent to the
ReviewResult it returns (adapters never raise: `review` wraps everything
in a blanket `except`, and the self adapter does no I/O). -/

/-- An instantiated external adapter. -/
structure AdapterM where
  name : String
  review : String → ReviewResult

/-- Model of `ClaudeSelfAdapter.review`: always succeeds with severity OK,
no issues, `is_self_review` set, and the built self-review message as its
raw payload (the message text itself is prompt content, out of scope). -/
def selfReviewResult (message : String) : ReviewResult :=
  { adapter_name := "claude_self"
    severity := .OK
    issues := []
    raw_response := message
    success := true
    is_self_review := true }

/-- Model of `CompletionOrchestrator._init_external_adapters`: honour
`include_external_review`, read `enabled_adapters` (defaulting to
`["gemini", "copilot"]`), keep the quota-available names, and instantiate
each known adapter that also reports itself locally available.  Returns
the adapter list with the quota map as mutated by the availability
checks. -/
def initExternalAdapters (cfg : Config) (q : QuotaState) (now : Int)
    (gemAvail copAvail : Bool)
    (gemReview copReview : String → ReviewResult) :
    List AdapterM × QuotaState :=
  if !(cfg.include_external_review.getD true) then ([], q)
  else
    let enabled := cfg.enabled_adapters.getD ["gemini", "copilot"]
    let r := getAvailableAdapters q enabled now
    let available := r.1
    let gems := if available.contains "gemini" && gemAvail then
      [AdapterM.mk "gemini" gemReview] else []
    let cops := if available.contains "copilot" && copAvail then
      [AdapterM.mk "copilot" copReview] else []
    (gems ++ cops, r.2)

/-! ## Debate orchestrator (debate_orchestrator.py) -/

/-- DebateRound dataclass. -/
structure DebateRound where
  round_num : Nat
  results : List ReviewResult
  consensus_reached : Bool
  final_severity : Option Severity := none
deriving DecidableEq

/-- Python `max` over a list of naturals (`max(indices)`; the source only
calls it on non-empty lists). -/
def pyMaxNat : List Nat → Nat
  | [] => 0
  | x :: xs => xs.foldl max x

/-- Python `min` over a list of naturals. -/
def pyMinNat : List Nat → Nat
  | [] => 0
  | x :: xs => xs.foldl min x

/-- Model of `DebateOrchestrator.needs_debate`. -/
def needsDebate (cfg : Config) (results : List ReviewResult) : Bool × String :=
  if !(cfg.debate_enabled.getD false) then (false, "debate disabled")
  else
    let successful := results.filter (fun r => r.success && !r.is_self_review)
    if successful.length < 1 then (false, "not enough results")
    else
      let severities := successful.map (·.severity)
      if cfg.trigger_on_high_severity.getD true &&
          severities.any (fun s => s == .HIGH || s == .CRITICAL) then
        (true, "high severity found")
      else
        if cfg.trigger_on_disagreement.getD true && severities.length ≥ 2 then
          let severity_levels := severities.dedup
          if severity_levels.length > 1 then
            let indices := severities.map Severity.idx
            if pyMaxNat indices - pyMinNat indices ≥ 2 then
              (true, "significant disagreement")
            else (false, "no debate needed")
          else (false, "no debate needed")
        else (false, "no debate needed")

/-- Model of `DebateOrchestrator._format_others_opinions`. -/
def formatOthersOpinions (results : List ReviewResult) : String :=
  String.intercalate "\n" (results.flatMap (fun r =>
    ("**" ++ r.adapter_name ++ "** (Severity: " ++ r.severity.value ++ "):") ::
    (if !r.issues.isEmpty then
      r.issues.flatMap (fun issue =>
        ("  - [" ++ issue.severity.value ++ "] " ++ issue.description) ::
        (if pyTruthyStr issue.suggestion then
          ["    → 제안: " ++ issue.suggestion.getD ""] else []))
    else ["  (이슈 없음)"]) ++ [""]))

/-- Model of `DebateOrchestrator.build_debate_prompt` (literal braces of
the embedded JSON template are written as escapes). -/
def buildDebatePrompt (originalPrompt : String) (others : List ReviewResult)
    (roundNum : Nat) : String :=
  "## 코드 리뷰 토론 - Round " ++ toString roundNum ++
  "\n\n다른 리뷰어의 의견을 검토하고 최종 판단을 내려주세요.\n\n### 다른 리뷰어 의견:\n" ++
  formatOthersOpinions others ++
  "\n\n### 원래 리뷰 요청:\n" ++ originalPrompt ++
  "\n\n### 지침:\n1. 다른 리뷰어의 의견을 신중히 검토하세요\n2. 동의하면 그 이유를, 반대하면 근거를 제시하세요\n3. 최종 severity와 이슈 목록을 결정하세요\n4. 새로운 이슈를 발견했다면 추가하세요\n\n### 응답 형식:\n```json\n\x7b\n  \"severity\": \"OK|LOW|MEDIUM|HIGH|CRITICAL\",\n  \"agree_with_others\": true/false,\n  \"reasoning\": \"동의/반대 이유\",\n  \"issues\": [\n    \x7b\n      \"description\": \"문제 설명\",\n      \"severity\": \"...\",\n      \"suggestion\": \"수정 제안\"\n    \x7d\n  ]\n\x7d\n```\n"

/-- Model of `DebateOrchestrator._check_consensus`. -/
def checkConsensus (results : List ReviewResult) : Bool × Option Severity :=
  let successful := results.filter (·.success)
  if successful.isEmpty then (false, none)
  else
    let severities := successful.map (·.severity)
    let unique := severities.dedup
    if unique.length == 1 then (true, severities.head?)
    else
      let indices := severities.map Severity.idx
      if pyMaxNat indices - pyMinNat indices ≤ 1 then
        (true, some (idxToSeverity (pyMaxNat indices)))
      else (false, none)

/-- Banker's rounding: the semantics of Python's built-in `round` on the
exact value of its argument (ties go to the even integer). -/
def pyRound (q : ℚ) : ℤ :=
  let f := Int.floor q
  let r := q - f
  if r < 1/2 then f
  else if 1/2 < r then f + 1
  else if Even f then f else f + 1

/-- The `score_to_severity` reverse map with its `.get(…, MEDIUM)`
default. -/
def scoreToSeverity (z : Int) : Severity :=
  if z = 0 then .OK
  else if z = 1 then .LOW
  else if z = 2 then .MEDIUM
  else if z = 3 then .HIGH
  else if z = 4 then .CRITICAL
  else .MEDIUM

/-- Loop body of `DebateOrchestrator._weighted_vote`: skip failed
verdicts, else accumulate `(weighted_score, total_weight)`;
`severity_scores` is the mapping `OK=0 … CRITICAL=4`, i.e.
`Severity.idx`, and missing weights default to 1.0. -/
def voteStep (weights : List (String × ℚ)) (acc : ℚ × ℚ) (r : ReviewResult) : ℚ × ℚ :=
  if !r.success then acc
  else
    let weight := (weightLookup weights r.adapter_name).getD 1
    let score : ℚ := (r.severity.idx : ℚ)
    (acc.1 + weight * score, acc.2 + weight)

/-- Model of `DebateOrchestrator._weighted_vote`. -/
def weightedVote (cfg : Config) (results : List ReviewResult) : Severity :=
  let weights := cfg.weights.getD []
  let acc := results.foldl (voteStep weights) (0, 0)
  if acc.2 = 0 then .OK
  else scoreToSeverity (pyRound (acc.1 / acc.2))

/-- Model of `DebateOrchestrator.format_debate_result`.  The source
dereferences `final_severity.value`; its only call site guards
`final_severity` non-None, so the `none` arm here is unreachable there. -/
def formatDebateResult (dr : DebateRound) : String :=
  let sevStr := match dr.final_severity with
    | some fs => fs.value
    | none => "None"
  String.intercalate "\n"
    (["\n### 🗣️ LLM 토론 결과 (Round " ++ toString dr.round_num ++ ")",
      "합의 도달: " ++ (if dr.consensus_reached then "✅ 예" else "❌ 아니오 (가중 투표)"),
      "최종 Severity: **" ++ sevStr ++ "**",
      ""] ++
     dr.results.flatMap (fun r =>
       if r.success then
         ("**" ++ r.adapter_name ++ "**: " ++ r.severity.value) ::
         (r.issues.take 3).map (fun issue => "  - " ++ issue.description)
       else []))

/-- Model of `DebateOrchestrator.run_debate`.  The remaining round
numbers drive the recursion: the source iterates
`range(2, max_rounds + 2)`, breaking out to a weighted vote either when a
round produced no results or when the rounds are spent. -/
def runDebateAux (cfg : Config) (adapters : List AdapterM) (originalPrompt : String) :
    List Nat → List ReviewResult → DebateRound
  | [], current =>
    { round_num := cfg.debate_max_rounds.getD 2 + 1
      results := current
      consensus_reached := false
      final_severity := some (weightedVote cfg current) }
  | roundNum :: rest, current =>
    let newResults := adapters.filterMap (fun a =>
      let others := current.filter (fun r => r.adapter_name ≠ a.name)
      if others.isEmpty then none
      else some (a.review (buildDebatePrompt originalPrompt others roundNum)))
    if newResults.isEmpty then
      { round_num := cfg.debate_max_rounds.getD 2 + 1
        results := current
        consensus_reached := false
        final_severity := some (weightedVote cfg current) }
    else
      let cc := checkConsensus newResults
      if cc.1 then
        { round_num := roundNum
          results := newResults
          consensus_reached := true
          final_severity := cc.2 }
      else runDebateAux cfg adapters originalPrompt rest newResults

/-- Entry point of the debate: rounds 2 … max_rounds+1 over the initial
fan-out results. -/
def runDebate (cfg : Config) (adapters : List AdapterM)
    (initialResults : List ReviewResult) (originalPrompt : String) : DebateRound :=
  runDebateAux cfg adapters originalPrompt
    (List.range' 2 (cfg.debate_max_rounds.getD 2)) initialResults

/-! ## Completion orchestrator (completion_orchestrator.py) -/

/-- The hook's stdin payload after `json.load`, restricted to the fields
the orchestrator reads (`tool_input.todos` is flattened to `todos`). -/
structure HookInput where
  session_id : Option String := none
  todos : List Todo := []
  has_transcript : Bool := false
  cwd : Option String := none

/-- The review context assembled by `_build_context`. -/
structure Context where
  session_id : String
  todos : List Todo
  combined_intent : String
  original_request : String
  message_count : Nat
  cwd : String

/-- Environment of one orchestration: configuration, the persisted state,
the wall clock, and the out-of-scope collaborators (prompt texts, adapter
transports, intent extraction, thread-completion order). -/
structure Env where
  cfg : Config
  prevTodo : TodoFile
  quota : QuotaState
  now : Int
  selfMessage : String
  externalPrompt : String
  gemAvail : Bool
  copAvail : Bool
  gemReview : String → ReviewResult
  copReview : String → ReviewResult
  completionOrder : List Nat
  intentCombined : String
  intentOriginal : String
  intentCount : Nat

/-- Model of `_build_context`: intent fields come from the transcript
extractor when a transcript path is present, else stay at the `{}`
defaults. -/
def buildContext (env : Env) (inp : HookInput) : Context :=
  { session_id := inp.session_id.getD "unknown"
    todos := inp.todos
    combined_intent := if inp.has_transcript then env.intentCombined else ""
    original_request := if inp.has_transcript then env.intentOriginal else ""
    message_count := if inp.has_transcript then env.intentCount else 0
    cwd := inp.cwd.getD "" }

/-- Model of `_format_todos`. -/
def formatTodos (todos : List Todo) : String :=
  if todos.isEmpty then "(없음)"
  else
    String.intercalate "\n" (todos.enum.map (fun p =>
      toString (p.1 + 1) ++ ". " ++
      (if p.2.status == "completed" then "✅" else "⏳") ++ " " ++ p.2.content))

/-- The reviewer prompt assembled inside `_run_parallel_reviews`. -/
def fullExternalPrompt (externalPrompt : String) (ctx : Context) : String :=
  externalPrompt ++ "\n\n## 사용자 원래 요청:\n" ++ ctx.combined_intent ++
  "\n\n## 완료된 작업 목록:\n" ++ formatTodos ctx.todos ++ "\n"

/-- Model of `_run_parallel_reviews`.  The self review runs inline; the
external adapters are re-instantiated (so cooldowns recorded earlier take
effect), then submitted to a thread pool.  `as_completed` yields the
futures in completion order — `order` lists the adapter indices in that
order — and each result is appended and its success or failure recorded
in the quota monitor as it arrives.  Adapters never raise (their `review`
catches everything), so the `except` arm of the source collapses.
Returns (results, instantiated adapters, mutated quota map). -/
def runParallelReviews (cfg : Config) (q : QuotaState) (now : Int)
    (selfMessage externalPrompt : String)
    (gemAvail copAvail : Bool)
    (gemReview copReview : String → ReviewResult)
    (order : List Nat) (ctx : Context) :
    List ReviewResult × (List AdapterM × QuotaState) :=
  let selfResults :=
    if cfg.include_self_review.getD true then [selfReviewResult selfMessage] else []
  let ia := initExternalAdapters cfg q now gemAvail copAvail gemReview copReview
  let adapters := ia.1
  if adapters.isEmpty then (selfResults, (adapters, ia.2))
  else
    let fullPrompt := fullExternalPrompt externalPrompt ctx
    let completed := order.filterMap (fun i => adapters[i]?)
    let externals := completed.map (fun a => a.review fullPrompt)
    let q2 := completed.foldl
      (fun acc a =>
        let r := a.review fullPrompt
        if r.success then recordSuccess acc a.name now
        else recordFailure acc a.name (r.error.getD "Unknown error") now)
      ia.2
    (selfResults ++ externals, (adapters, q2))

/-- Final-severity computation of `_build_output`: the debate's severity
when one ran (and carries a severity), else the max severity over the
successful external results, else OK. -/
def finalSeverityOf (results : List ReviewResult) (debateResult : Option DebateRound) :
    Severity :=
  let external := results.filter (fun r => !r.is_self_review && r.success)
  let fromExternal := if external.isEmpty then Severity.OK
    else sevMax .OK (external.map (·.severity))
  match debateResult with
  | some dr =>
    match dr.final_severity with
    | some fs => fs
    | none => fromExternal
  | none => fromExternal

/-- The external-findings block `_build_output` renders when the max
external severity is not OK. -/
def externalResultMessages (external : List ReviewResult) : List String :=
  let fs := sevMax .OK (external.map (·.severity))
  if fs ≠ .OK then
    ("\n### 외부 LLM 검토 결과 (" ++ fs.value ++ "):") ::
    external.flatMap (fun r =>
      if !r.issues.isEmpty then
        ("\n**" ++ r.adapter_name ++ "**:") ::
        r.issues.flatMap (fun issue =>
          ("- [" ++ issue.severity.value ++ "] " ++ issue.description) ::
          (if pyTruthyStr issue.suggestion then
            ["  → 제안: " ++ issue.suggestion.getD ""] else []))
      else [])
  else []

/-- Message assembly of `_build_output`: self-review payloads first, then
the debate summary or the external-findings block, then the blocking
banner when the final severity is CRITICAL. -/
def outMessages (results : List ReviewResult) (debateResult : Option DebateRound) :
    List String :=
  let selfMsgs := results.filterMap (fun r =>
    if r.is_self_review then some r.raw_response else none)
  let external := results.filter (fun r => !r.is_self_review && r.success)
  let branchMsgs :=
    match debateResult with
    | some dr =>
      match dr.final_severity with
      | some _ => [formatDebateResult dr]
      | none => if external.isEmpty then [] else externalResultMessages external
    | none => if external.isEmpty then [] else externalResultMessages external
  let blockMsg :=
    if finalSeverityOf results debateResult = .CRITICAL then
      ["\n⛔ **CRITICAL 이슈 발견**: 작업이 블록되었습니다. 위 문제를 해결한 후 다시 시도해주세요."]
    else []
  selfMsgs ++ branchMsgs ++ blockMsg

/-- Model of `_build_output`: the hook's response object together with the
final severity it computed (`continue = not (final_severity == CRITICAL)`). -/
def buildOutput (results : List ReviewResult) (debateResult : Option DebateRound) :
    Json × Severity :=
  (Json.obj
    [("continue", Json.bool (!(decide (finalSeverityOf results debateResult = Severity.CRITICAL)))),
     ("systemMessage", Json.str (String.intercalate "\n" (outMessages results debateResult)))],
   finalSeverityOf results debateResult)

/-- The fan-out of one orchestration (step 4 of `orchestrate`). -/
def fanOutOf (env : Env) (inp : HookInput) :
    List ReviewResult × (List AdapterM × QuotaState) :=
  runParallelReviews env.cfg env.quota env.now env.selfMessage
    env.externalPrompt env.gemAvail env.copAvail env.gemReview env.copReview
    env.completionOrder (buildContext env inp)

/-- The debate decision of one orchestration (step 4.5 of `orchestrate`):
run the debate when there are successful external results and the
trigger fires. -/
def debateResultOf (env : Env) (inp : HookInput) : Option DebateRound :=
  let results := (fanOutOf env inp).1
  let external := results.filter (fun r => !r.is_self_review && r.success)
  if !external.isEmpty then
    if (needsDebate env.cfg external).1 then
      some (runDebate env.cfg (fanOutOf env inp).2.1 external env.externalPrompt)
    else none
  else none

/-- The result list fed to `_build_output`: when a debate ran, its final
verdicts replace the external ones (self-review verdicts preserved). -/
def finalResultsOf (env : Env) (inp : HookInput) : List ReviewResult :=
  match debateResultOf env inp with
  | some dr => (fanOutOf env inp).1.filter (·.is_self_review) ++ dr.results
  | none => (fanOutOf env inp).1

/-- Model of `CompletionOrchestrator.orchestrate`.  Returns the response
object paired with the final severity the run computed (`none` on the
early exits, where no severity is computed). -/
def orchestrate (env : Env) (inp : HookInput) : Json × Option Severity :=
  let det := detectCompletion env.prevTodo inp.todos env.now
  if !det.1.just_completed then
    (Json.obj [("continue", Json.bool true), ("systemMessage", Json.str "")], none)
  else
    let max_reviews := env.cfg.max_reviews.getD 3
    let review_count := getCompletionReviewCount det.2
    if (review_count : Int) ≥ max_reviews then
      (Json.obj [("continue", Json.bool true),
        ("systemMessage", Json.str ("[완료검토] 최대 검토 횟수(" ++ toString max_reviews ++
          ")에 도달. 진행합니다."))], none)
    else
      let _incremented := incrementCompletionReviewCount det.2 env.now
      ((buildOutput (finalResultsOf env inp) (debateResultOf env inp)).1,
       some (buildOutput (finalResultsOf env inp) (debateResultOf env inp)).2)

/-- Model of the CLI entry point `main`: a stdin JSON parse failure
(`inp = none`) answers with the parse-failure passthrough; otherwise the
orchestration runs. -/
def mainModel (env : Env) (inp : Option HookInput) : Json × Option Severity :=
  match inp with
  | none =>
    (Json.obj [("continue", Json.bool true),
      ("systemMessage", Json.str "[완료검토] 입력 파싱 실패")], none)
  | some h => orchestrate env h

/-! ## Spec-side reference definitions

These are written from the specification's words, to be compared with the
definitions translated from the source above. -/

/-- Rounding with ties upward, the tie rule named by the claim about the
weighted vote ("ties resolving upward"). -/
def roundTiesUp (q : ℚ) : ℤ := Int.floor (q + 1/2)

/-- The weighted vote exactly as the claim words it: severity→integer map
OK=0 … CRITICAL=4, weight-averaged score over successful verdicts
(missing weights default to 1.0), rounded with ties resolving upward,
mapped back to a severity. -/
def claimWeightedVote (cfg : Config) (results : List ReviewResult) : Severity :=
  let weights := cfg.weights.getD []
  let successful := results.filter (·.success)
  let total_weight := (successful.map
    (fun r => (weightLookup weights r.adapter_name).getD 1)).sum
  let score := (successful.map
    (fun r => (weightLookup weights r.adapter_name).getD 1 * (r.severity.idx : ℚ))).sum
  if total_weight = 0 then .OK
  else scoreToSeverity (roundTiesUp (score / total_weight))

/-- The weighted vote as the spec describes it but with half-to-even
rounding (the rounding the source's `round` performs): Σ w·s / Σ w over
the successful verdicts, stated with list sums rather than the source's
loop accumulator. -/
def specWeightedVote (cfg : Config) (results : List ReviewResult) : Severity :=
  let weights := cfg.weights.getD []
  let successful := results.filter (·.success)
  let total_weight := (successful.map
    (fun r => (weightLookup weights r.adapter_name).getD 1)).sum
  let score := (successful.map
    (fun r => (weightLookup weights r.adapter_name).getD 1 * (r.severity.idx : ℚ))).sum
  if total_weight = 0 then .OK
  else scoreToSeverity (pyRound (score / total_weight))

/-! ## Iterated detection (harness over detect_completion for the
sequence claims) -/

/-- The sequence of `just_completed` answers produced by successive
detection calls, each threading the persisted state to the next. -/
def justTrace (st : TodoFile) : List (List Todo × Int) → List Bool
  | [] => []
  | (ts, t) :: rest =>
    let r := detectCompletion st ts t
    r.1.just_completed :: justTrace r.2 rest

/-- A fully completed, non-empty todo list (the driver of the edge
claims). -/
def fullyCompleted (ts : List Todo) : Prop :=
  ts ≠ [] ∧ ∀ t ∈ ts, t.status = "completed"

instance (ts : List Todo) : Decidable (fullyCompleted ts) := by
  unfold fullyCompleted; infer_instance

/-! ## Theorems -/

/-- C2 (code bug evaluation): starting from a stored todo record with
`review_count = 1` and `all_completed = true`, one detection call with the
same still-complete todo list rewrites the record without any
`review_count` key, so the count reads back as 0, not 1. -/
theorem detect_completion_drops_review_count :
    getCompletionReviewCount
      { all_completed := some true, total := some 1, completed := some 1,
        todos_snapshot := some [("a", "completed")], review_count := some 1 } = 1 ∧
    (detectCompletion
      { all_completed := some true, total := some 1, completed := some 1,
        todos_snapshot := some [("a", "completed")], review_count := some 1 }
      [{ content := "a", status := "completed" }] 0).2.review_count = none ∧
    getCompletionReviewCount
      (detectCompletion
        { all_completed := some true, total := some 1, completed := some 1,
          todos_snapshot := some [("a", "completed")], review_count := some 1 }
        [{ content := "a", status := "completed" }] 0).2 = 0 := by
  decide

/-- C4 (counterexample): the reply `"3"` is a string on which the parser
raises — `json.loads("3")` succeeds with the integer 3, and
`data.get("severity", "OK")` then raises AttributeError, which the
narrow `except (JSONDecodeError, KeyError)` does not catch. -/
theorem parse_response_raises_on_nonobject :
    parseResponse "gemini" "3" (some (Json.num 3)) = Except.error "AttributeError" := by
  rfl

/-- C6 (counterexample): after a success, a single non-quota failure
leaves the status `available` — not `unknown` as the claim's final arm
demands (the source's `else` branch does not touch `status`). -/
theorem record_failure_else_not_unknown :
    isQuotaError "boom" = false ∧
    (quotaLookup (recordFailure (recordSuccess [] "x" 0) "x" "boom" 1) "x").map
      (·.consecutive_failures) = some 1 ∧
    (quotaLookup (recordFailure (recordSuccess [] "x" 0) "x" "boom" 1) "x").map
      (·.status) = some QuotaStatus.AVAILABLE ∧
    (quotaLookup (recordFailure (recordSuccess [] "x" 0) "x" "boom" 1) "x").map
      (·.status) ≠ some QuotaStatus.UNKNOWN := by
  decide

/-- C10 (counterexample): with the config file missing, the orchestrator
considers `["gemini", "copilot"]` — not the empty set the claim states —
and instantiates both adapters when they are locally available and no
quota record blocks them. -/
theorem missing_config_instantiates_adapters :
    missingConfig.enabled_adapters = none ∧
    ((initExternalAdapters missingConfig [] 0 true true
        (fun _ => { adapter_name := "gemini", severity := .OK, issues := [],
                    raw_response := "g" })
        (fun _ => { adapter_name := "copilot", severity := .OK, issues := [],
                    raw_response := "c" })).1.map (·.name)) = ["gemini", "copilot"] := by
  constructor
  · rfl
  · rfl

/-- C5 (counterexample): two external adapters, with the copilot call
completing before the gemini call (`order = [1, 0]`, self review off):
the fan-out returns the verdicts in completion order, not in the
input-adapter order the claim states. -/
theorem fan_out_returns_completion_order :
    (runParallelReviews
        { include_self_review := some false } [] 0 "" "" true true
        (fun _ => { adapter_name := "gemini", severity := .OK, issues := [],
                    raw_response := "g" })
        (fun _ => { adapter_name := "copilot", severity := .OK, issues := [],
                    raw_response := "c" })
        [1, 0]
        { session_id := "s", todos := [], combined_intent := "",
          original_request := "", message_count := 0, cwd := "" }).1.map
      (·.adapter_name) = ["copilot", "gemini"] ∧
    ["copilot", "gemini"] ≠ ["gemini", "copilot"] := by
  exact ⟨rfl, by decide⟩

/-- C9 (counterexample): two successful verdicts OK and LOW with default
weights give average 1/2.  The source's `round` (half-to-even) yields 0,
so the vote is OK; the claim's tie rule "ties resolving upward" demands
LOW.  The two disagree at this input, refuting the claim as stated. -/
theorem weighted_vote_tie_not_upward :
    weightedVote {} [{ adapter_name := "a", severity := .OK, issues := [],
                       raw_response := "" },
                     { adapter_name := "b", severity := .LOW, issues := [],
                       raw_response := "" }] = Severity.OK ∧
    claimWeightedVote {} [{ adapter_name := "a", severity := .OK, issues := [],
                            raw_response := "" },
                          { adapter_name := "b", severity := .LOW, issues := [],
                            raw_response := "" }] = Severity.LOW := by
  constructor
  · norm_num [weightedVote, voteStep, weightLookup, List.foldl, Severity.idx, pyRound,
      scoreToSeverity]
  · norm_num [claimWeightedVote, weightLookup, List.filter, Severity.idx,
      roundTiesUp, scoreToSeverity]

/-- Dict update then lookup of the same key. -/
theorem quotaLookup_quotaSet_self (s : QuotaState) (key : String) (q : AdapterQuota) :
    quotaLookup (quotaSet s key q) key = some q := by
  induction s with
  | nil => simp [quotaSet, quotaLookup]
  | cons kv rest ih =>
    by_cases h : kv.1 = key
    · simp [quotaSet, quotaLookup, h]
    · simp [quotaSet, quotaLookup, h, ih]

/-- C6 (amended): after `record_failure`, the adapter's record exists with
`consecutive_failures` bumped by one; a quota-signalling error text or a
third consecutive failure makes it `exhausted` with a cooldown of now
plus 30 minutes; otherwise a second consecutive failure makes it `low`;
otherwise the status is left unchanged — `unknown` only when the adapter
had no prior record. -/
theorem record_failure_classification (s : QuotaState) (name error : String)
    (now : Int) :
    ∃ q', quotaLookup (recordFailure s name error now) name = some q' ∧
      q'.consecutive_failures =
        ((quotaLookup s name).map (·.consecutive_failures)).getD 0 + 1 ∧
      (isQuotaError error = true ∨ 3 ≤ q'.consecutive_failures →
        q'.status = .EXHAUSTED ∧ q'.cooldown_until = some (now + thirtyMinutes)) ∧
      (isQuotaError error = false → q'.consecutive_failures = 2 →
        q'.status = .LOW) ∧
      (isQuotaError error = false → q'.consecutive_failures < 2 →
        q'.status = ((quotaLookup s name).map (·.status)).getD .UNKNOWN) := by
  simp only [recordFailure]
  refine ⟨_, quotaLookup_quotaSet_self .., ?_⟩
  cases hl : quotaLookup s name with
  | none =>
    simp only [hl, Option.getD_none, Option.map_none', Option.getD]
    split_ifs with h1 h2 <;> simp_all
  | some q0 =>
    simp only [hl, Option.getD_some, Option.map_some', Option.getD]
    split_ifs with h1 h2 <;> first | (simp_all; done) | skip
    refine ⟨rfl, fun _ => ⟨rfl, rfl⟩, ?_, ?_⟩ <;>
      intro herr hcf <;> rw [herr] at h1 <;> simp at h1 <;> simp at hcf <;> omega

/-- C6 (witness): the amended classification applied at a concrete
quota-signalling failure against an empty quota map. -/
theorem record_failure_classification_witness :
    ∃ q', quotaLookup (recordFailure [] "x" "quota exceeded" 0) "x" = some q' ∧
      q'.status = .EXHAUSTED ∧ q'.cooldown_until = some (0 + thirtyMinutes) := by
  obtain ⟨q', hq, _, hex, _, _⟩ :=
    record_failure_classification [] "x" "quota exceeded" 0
  exact ⟨q', hq, (hex (Or.inl (by decide))).1, (hex (Or.inl (by decide))).2⟩

/-- C7: after a failure with a quota-signalling error text, the adapter is
unavailable at every instant inside the 30-minute cooldown window; at the
first `is_available` call at or past the expiry it answers true and clears
the cooldown in place — `consecutive_failures` 0, status `unknown`,
`cooldown_until` empty. -/
theorem quota_cooldown_blocks_then_clears
    (s : QuotaState) (name error : String) (tFail tQuery : Int)
    (herr : isQuotaError error = true) :
    (tQuery < tFail + thirtyMinutes →
      (isAvailable (recordFailure s name error tFail) name tQuery).1 = false) ∧
    (tFail + thirtyMinutes ≤ tQuery →
      (isAvailable (recordFailure s name error tFail) name tQuery).1 = true ∧
      ∃ q', quotaLookup
          (isAvailable (recordFailure s name error tFail) name tQuery).2 name
          = some q' ∧
        q'.status = .UNKNOWN ∧ q'.consecutive_failures = 0 ∧
        q'.cooldown_until = none) := by
  have hrec : ∃ q', quotaLookup (recordFailure s name error tFail) name = some q' ∧
      q'.status = .EXHAUSTED ∧ q'.cooldown_until = some (tFail + thirtyMinutes) := by
    simp only [recordFailure, herr]
    exact ⟨_, quotaLookup_quotaSet_self .., by simp, by simp⟩
  obtain ⟨q', hq, _, hcool⟩ := hrec
  constructor
  · intro hlt
    simp only [isAvailable, hq, hcool]
    rw [if_pos hlt]
  · intro hge
    simp only [isAvailable, hq, hcool]
    rw [if_neg (by omega)]
    refine ⟨by simp, _, quotaLookup_quotaSet_self .., rfl, rfl, rfl⟩

/-- C7 (witness): the cooldown theorem applied to a concrete failure at
time 0 with queries just inside and at the window boundary. -/
theorem quota_cooldown_witness :
    (isAvailable (recordFailure [] "gemini" "quota exceeded" 0) "gemini"
      (thirtyMinutes - 1)).1 = false ∧
    (isAvailable (recordFailure [] "gemini" "quota exceeded" 0) "gemini"
      thirtyMinutes).1 = true := by
  constructor
  · exact (quota_cooldown_blocks_then_clears [] "gemini" "quota exceeded" 0
      (thirtyMinutes - 1) (by decide)).1 (by decide)
  · exact ((quota_cooldown_blocks_then_clears [] "gemini" "quota exceeded" 0
      thirtyMinutes (by decide)).2 (by decide)).1

/-- Detection step on a fully completed, non-empty list: the edge fires
exactly when the stored record did not already say all-completed, and the
rewritten record says all-completed. -/
theorem detect_full_step (st : TodoFile) (ts : List Todo) (now : Int)
    (hts : fullyCompleted ts) :
    (detectCompletion st ts now).1.just_completed = !(st.all_completed.getD false) ∧
    (detectCompletion st ts now).2.all_completed = some true ∧
    (detectCompletion st ts now).1.all_completed = true := by
  obtain ⟨hne, hall⟩ := hts
  have hfilter : ts.filter (fun t => t.status == "completed") = ts :=
    List.filter_eq_self.mpr (fun t ht => by simp [hall t ht])
  have hempty : ts.isEmpty = false := by
    cases ts with
    | nil => exact absurd rfl hne
    | cons a l => rfl
  simp [detectCompletion, hempty, hfilter]

/-- Detection step on a non-empty list with an incomplete entry: no edge,
and the rewritten record says not-all-completed. -/
theorem detect_partial_step (st : TodoFile) (ts : List Todo) (now : Int)
    (hne : ts ≠ []) (hsome : ∃ t ∈ ts, t.status ≠ "completed") :
    (detectCompletion st ts now).1.just_completed = false ∧
    (detectCompletion st ts now).2.all_completed = some false ∧
    (detectCompletion st ts now).1.all_completed = false := by
  have hlt : (ts.filter (fun t => t.status == "completed")).length < ts.length := by
    refine List.length_filter_lt_length_iff_exists.mpr ?_
    obtain ⟨t, ht, hst⟩ := hsome
    exact ⟨t, ht, by simpa using hst⟩
  have hneq : ((ts.filter (fun t => t.status == "completed")).length == ts.length)
      = false := by
    simp only [beq_eq_false_iff_ne, ne_eq]
    omega
  have hempty : ts.isEmpty = false := by
    cases ts with
    | nil => exact absurd rfl hne
    | cons a l => rfl
  simp [detectCompletion, hempty, hneq]

/-- While the stored record already says all-completed, further fully
completed detection calls never fire the edge. -/
theorem justTrace_already_complete (calls : List (List Todo × Int)) :
    ∀ st : TodoFile, st.all_completed.getD false = true →
    (∀ c ∈ calls, fullyCompleted c.1) →
    justTrace st calls = List.replicate calls.length false := by
  induction calls with
  | nil => intro st _ _; rfl
  | cons c rest ih =>
    intro st hst hcalls
    have hc := detect_full_step st c.1 c.2 (hcalls c (by simp))
    simp only [justTrace, List.length_cons, List.replicate_succ]
    rw [hc.1, hst, ih _ (by rw [hc.2.1]; rfl) (fun d hd => hcalls d (by simp [hd]))]
    rfl

/-- C3: (i) an empty todo list detects as not-completed and never fires
the edge; (ii) starting from any stored state not already marked
all-completed, a sequence of detection calls whose (non-empty) todo lists
are fully completed throughout fires `just_completed` on exactly the
first call; (iii) from an all-completed state, a call whose list has a
todo moved away from `completed` followed by fully completed calls
re-arms exactly one new edge. -/
theorem detect_completion_edge_semantics :
    (∀ (st : TodoFile) (now : Int),
      (detectCompletion st [] now).1.all_completed = false ∧
      (detectCompletion st [] now).1.just_completed = false) ∧
    (∀ (st : TodoFile) (calls : List (List Todo × Int)),
      st.all_completed.getD false = false → calls ≠ [] →
      (∀ c ∈ calls, fullyCompleted c.1) →
      justTrace st calls = true :: List.replicate (calls.length - 1) false) ∧
    (∀ (st : TodoFile) (tsMid tsFull : List Todo) (t1 t2 t3 : Int),
      st.all_completed.getD false = true →
      tsMid ≠ [] → (∃ t ∈ tsMid, t.status ≠ "completed") →
      fullyCompleted tsFull →
      justTrace st [(tsMid, t1), (tsFull, t2), (tsFull, t3)] =
        [false, true, false]) := by
  refine ⟨fun st now => ⟨rfl, rfl⟩, ?_, ?_⟩
  · intro st calls hst hne hcalls
    cases calls with
    | nil => exact absurd rfl hne
    | cons c rest =>
      have hc := detect_full_step st c.1 c.2 (hcalls c (by simp))
      simp only [justTrace, List.length_cons, Nat.add_sub_cancel]
      rw [hc.1, hst,
        justTrace_already_complete rest _ (by rw [hc.2.1]; rfl)
          (fun d hd => hcalls d (by simp [hd]))]
      rfl
  · intro st tsMid tsFull t1 t2 t3 hst hne hsome hfull
    have h1 := detect_partial_step st tsMid t1 hne hsome
    simp only [justTrace]
    rw [h1.1]
    have h2 := detect_full_step (detectCompletion st tsMid t1).2 tsFull t2 hfull
    rw [h2.1, h1.2.1]
    have h3 := detect_full_step
      (detectCompletion (detectCompletion st tsMid t1).2 tsFull t2).2 tsFull t3 hfull
    rw [h3.1, h2.2.1]
    rfl

/-- C3 (witness): the edge semantics at a concrete session — a fresh
store, two consecutive fully completed calls, and a reopen/complete
cycle. -/
theorem detect_completion_edge_semantics_witness :
    ((detectCompletion {} [] 0).1.all_completed = false ∧
      (detectCompletion {} [] 0).1.just_completed = false) ∧
    justTrace {} [([{ content := "a", status := "completed" }], 1),
                  ([{ content := "a", status := "completed" }], 2)] = [true, false] ∧
    justTrace { all_completed := some true }
      [([{ content := "a", status := "in_progress" }], 3),
       ([{ content := "a", status := "completed" }], 4),
       ([{ content := "a", status := "completed" }], 5)] = [false, true, false] := by
  refine ⟨detect_completion_edge_semantics.1 {} 0, ?_, ?_⟩
  · exact detect_completion_edge_semantics.2.1 {} _ rfl (by decide) (by decide)
  · exact detect_completion_edge_semantics.2.2 { all_completed := some true } _ _ 3 4 5
      rfl (by decide) (by decide) (by decide)

/-- Seed bound for the running maximum. -/
theorem foldl_max_init_le (xs : List Nat) : ∀ a, a ≤ xs.foldl max a := by
  induction xs with
  | nil => intro a; simp
  | cons b t ih =>
    intro a
    simpa [List.foldl] using le_trans (le_max_left a b) (ih (max a b))

/-- Every member is bounded by the running maximum. -/
theorem foldl_max_member_le (xs : List Nat) : ∀ a, ∀ x ∈ xs, x ≤ xs.foldl max a := by
  induction xs with
  | nil => intro a x hx; cases hx
  | cons b t ih =>
    intro a x hx
    cases hx with
    | head => simpa [List.foldl] using le_trans (le_max_right a b) (foldl_max_init_le t _)
    | tail _ hm => simpa [List.foldl] using ih (max a b) x hm

/-- The running maximum is the seed or a member. -/
theorem foldl_max_cases (xs : List Nat) : ∀ a, xs.foldl max a = a ∨ xs.foldl max a ∈ xs := by
  induction xs with
  | nil => intro a; left; rfl
  | cons b t ih =>
    intro a
    rcases ih (max a b) with h | h
    · rcases max_cases a b with ⟨hm, _⟩ | ⟨hm, _⟩
      · left; simpa [List.foldl, hm] using h
      · right; simp only [List.foldl] at *; rw [h, hm]; exact List.mem_cons_self _ _
    · right; exact List.mem_cons_of_mem _ (by simpa [List.foldl] using h)

/-- Seed bound for the running minimum. -/
theorem foldl_min_init_ge (xs : List Nat) : ∀ a, xs.foldl min a ≤ a := by
  induction xs with
  | nil => intro a; simp
  | cons b t ih =>
    intro a
    simpa [List.foldl] using le_trans (ih (min a b)) (min_le_left a b)

/-- Every member bounds the running minimum. -/
theorem foldl_min_member_ge (xs : List Nat) : ∀ a, ∀ x ∈ xs, xs.foldl min a ≤ x := by
  induction xs with
  | nil => intro a x hx; cases hx
  | cons b t ih =>
    intro a x hx
    cases hx with
    | head => simpa [List.foldl] using le_trans (foldl_min_init_ge t _) (min_le_right a b)
    | tail _ hm => simpa [List.foldl] using ih (min a b) x hm

/-- Python max of a non-empty list is a member. -/
theorem pyMaxNat_mem {l : List Nat} (hne : l ≠ []) : pyMaxNat l ∈ l := by
  cases l with
  | nil => exact absurd rfl hne
  | cons x xs =>
    rcases foldl_max_cases xs x with h | h
    · simp [pyMaxNat, h]
    · exact List.mem_cons_of_mem _ (by simpa [pyMaxNat] using h)

/-- Python max bounds every member. -/
theorem pyMaxNat_ge {l : List Nat} : ∀ x ∈ l, x ≤ pyMaxNat l := by
  cases l with
  | nil => intro x hx; cases hx
  | cons a xs =>
    intro x hx
    cases hx with
    | head => exact foldl_max_init_le xs a
    | tail _ hm => exact foldl_max_member_le xs a x hm

/-- Python min is bounded by every member. -/
theorem pyMinNat_le {l : List Nat} : ∀ x ∈ l, pyMinNat l ≤ x := by
  cases l with
  | nil => intro x hx; cases hx
  | cons a xs =>
    intro x hx
    cases hx with
    | head => exact foldl_min_init_ge xs a
    | tail _ hm => exact foldl_min_member_ge xs a x hm

/-- The running minimum is the seed or a member. -/
theorem foldl_min_cases (xs : List Nat) : ∀ a, xs.foldl min a = a ∨ xs.foldl min a ∈ xs := by
  induction xs with
  | nil => intro a; left; rfl
  | cons b t ih =>
    intro a
    rcases ih (min a b) with h | h
    · rcases min_cases a b with ⟨hm, _⟩ | ⟨hm, _⟩
      · left; simpa [List.foldl, hm] using h
      · right; simp only [List.foldl] at *; rw [h, hm]; exact List.mem_cons_self _ _
    · right; exact List.mem_cons_of_mem _ (by simpa [List.foldl] using h)

/-- Python min of a non-empty list is a member. -/
theorem pyMinNat_mem {l : List Nat} (hne : l ≠ []) : pyMinNat l ∈ l := by
  cases l with
  | nil => exact absurd rfl hne
  | cons x xs =>
    rcases foldl_min_cases xs x with h | h
    · simp [pyMinNat, h]
    · exact List.mem_cons_of_mem _ (by simpa [pyMinNat] using h)

/-- A constant non-empty list has that constant as its Python max. -/
theorem pyMaxNat_const {l : List Nat} {c : Nat} (hne : l ≠ [])
    (h : ∀ x ∈ l, x = c) : pyMaxNat l = c := by
  have hm := pyMaxNat_mem hne
  exact h _ hm

/-- Deduplication of a constant non-empty list is the singleton. -/
theorem dedup_all_eq {l : List Severity} {s : Severity} (hne : l ≠ [])
    (h : ∀ x ∈ l, x = s) : l.dedup = [s] := by
  induction l with
  | nil => exact absurd rfl hne
  | cons a t ih =>
    cases t with
    | nil => simp [List.dedup, h a (by simp)]
    | cons b u =>
      have hmem : a ∈ b :: u := by
        rw [h a (by simp), ← h b (by simp)]
        exact List.mem_cons_self _ _
      rw [List.dedup_cons_of_mem hmem]
      exact ih (by simp) (fun x hx => h x (List.mem_cons_of_mem _ hx))

/-- Index and severity are inverse on the range the source uses. -/
theorem idx_idxToSeverity {i : Nat} (h : i ≤ 4) : (idxToSeverity i).idx = i := by
  interval_cases i <;> rfl

/-- Each severity's index is at most 4. -/
theorem severity_idx_le_four (s : Severity) : s.idx ≤ 4 := by
  cases s <;> simp [Severity.idx]

/-- C8: on a non-empty set of successful verdicts, the consensus check
yields consensus at the common severity when all severities agree;
consensus at the severity whose index is the maximum (dominating all
others) when the index spread is at most one step; and no consensus when
the spread is two or more. -/
theorem check_consensus_cases (results : List ReviewResult)
    (hne : results.filter (·.success) ≠ []) :
    (∀ s : Severity,
      (∀ x ∈ (results.filter (·.success)).map (·.severity), x = s) →
      checkConsensus results = (true, some s)) ∧
    (pyMaxNat (((results.filter (·.success)).map (·.severity)).map Severity.idx) -
        pyMinNat (((results.filter (·.success)).map (·.severity)).map Severity.idx) ≤ 1 →
      ∃ m, checkConsensus results = (true, some m) ∧
        m.idx = pyMaxNat (((results.filter (·.success)).map (·.severity)).map Severity.idx) ∧
        ∀ x ∈ (results.filter (·.success)).map (·.severity), x.idx ≤ m.idx) ∧
    (2 ≤ pyMaxNat (((results.filter (·.success)).map (·.severity)).map Severity.idx) -
        pyMinNat (((results.filter (·.success)).map (·.severity)).map Severity.idx) →
      checkConsensus results = (false, none)) := by
  have hempty : (results.filter (·.success)).isEmpty = false := by
    cases hcase : (results.filter (·.success)).isEmpty with
    | false => rfl
    | true => exact absurd (List.isEmpty_iff.mp hcase) hne
  have hsevne : (results.filter (·.success)).map (·.severity) ≠ [] := by
    simpa [List.map_eq_nil_iff] using hne
  have hidxne : ((results.filter (·.success)).map (·.severity)).map Severity.idx ≠ [] := by
    simpa [List.map_eq_nil_iff] using hsevne
  have hmaxle : pyMaxNat (((results.filter (·.success)).map (·.severity)).map Severity.idx)
      ≤ 4 := by
    obtain ⟨x, _, hxi⟩ := List.mem_map.mp (pyMaxNat_mem hidxne)
    rw [← hxi]
    exact severity_idx_le_four x
  refine ⟨?_, ?_, ?_⟩
  · intro s hall
    have hded := dedup_all_eq hsevne hall
    simp only [checkConsensus, hempty, Bool.false_eq_true, if_false, hded,
      List.length_singleton]
    cases hsev : (results.filter (·.success)).map (·.severity) with
    | nil => exact absurd hsev hsevne
    | cons a t =>
      have ha : a = s := hall a (by rw [hsev]; exact List.mem_cons_self _ _)
      simp [ha]
  · intro hspread
    cases hlen : (((results.filter (·.success)).map (·.severity)).dedup.length == 1) with
    | true =>
      obtain ⟨u, hu⟩ := List.length_eq_one.mp (by simpa using hlen)
      have hall : ∀ x ∈ (results.filter (·.success)).map (·.severity), x = u := by
        intro x hx
        have hxu : x ∈ [u] := by rw [← hu]; exact (List.mem_dedup).mpr hx
        simpa using hxu
      refine ⟨u, ?_, ?_, ?_⟩
      · simp only [checkConsensus, hempty, Bool.false_eq_true, if_false, hu,
          List.length_singleton]
        cases hsev : (results.filter (·.success)).map (·.severity) with
        | nil => exact absurd hsev hsevne
        | cons a t =>
          have ha : a = u := hall a (by rw [hsev]; exact List.mem_cons_self _ _)
          simp [ha]
      · refine (pyMaxNat_const hidxne ?_).symm
        intro i hi
        obtain ⟨x, hx, hxi⟩ := List.mem_map.mp hi
        rw [← hxi, hall x hx]
      · intro x hx
        rw [hall x hx]
    | false =>
      refine ⟨idxToSeverity (pyMaxNat
        (((results.filter (·.success)).map (·.severity)).map Severity.idx)), ?_, ?_, ?_⟩
      · simp only [checkConsensus, hempty, Bool.false_eq_true, if_false, hlen]
        rw [if_pos hspread]
      · exact idx_idxToSeverity hmaxle
      · intro x hx
        rw [idx_idxToSeverity hmaxle]
        exact pyMaxNat_ge _ (List.mem_map_of_mem _ hx)
  · intro hsp
    cases hlen : (((results.filter (·.success)).map (·.severity)).dedup.length == 1) with
    | true =>
      obtain ⟨u, hu⟩ := List.length_eq_one.mp (by simpa using hlen)
      have hall : ∀ i ∈ ((results.filter (·.success)).map (·.severity)).map Severity.idx,
          i = u.idx := by
        intro i hi
        obtain ⟨x, hx, hxi⟩ := List.mem_map.mp hi
        have hxu : x ∈ [u] := by rw [← hu]; exact (List.mem_dedup).mpr hx
        rw [← hxi, show x = u by simpa using hxu]
      have hmax := pyMaxNat_const hidxne hall
      have hmin := hall _ (pyMinNat_mem hidxne)
      omega
    | false =>
      simp only [checkConsensus, hempty, Bool.false_eq_true, if_false, hlen]
      rw [if_neg (by omega)]

/-- C8 (witness): the consensus cases at concrete inputs — agreement at
MEDIUM, a one-step LOW/MEDIUM spread resolving to MEDIUM, and a two-step
OK/MEDIUM spread yielding no consensus. -/
theorem check_consensus_witness :
    checkConsensus
      [{ adapter_name := "a", severity := .MEDIUM, issues := [], raw_response := "" },
       { adapter_name := "b", severity := .MEDIUM, issues := [], raw_response := "" }]
      = (true, some .MEDIUM) ∧
    (∃ m, checkConsensus
      [{ adapter_name := "a", severity := .LOW, issues := [], raw_response := "" },
       { adapter_name := "b", severity := .MEDIUM, issues := [], raw_response := "" }]
      = (true, some m) ∧ m = Severity.MEDIUM) ∧
    checkConsensus
      [{ adapter_name := "a", severity := .OK, issues := [], raw_response := "" },
       { adapter_name := "b", severity := .MEDIUM, issues := [], raw_response := "" }]
      = (false, none) := by
  refine ⟨?_, ?_, ?_⟩
  · exact (check_consensus_cases _ (by decide)).1 .MEDIUM (by decide)
  · obtain ⟨m, hm, hidx, _⟩ := (check_consensus_cases
      [{ adapter_name := "a", severity := .LOW, issues := [], raw_response := "" },
       { adapter_name := "b", severity := .MEDIUM, issues := [], raw_response := "" }]
      (by decide)).2.1 (by decide)
    refine ⟨m, hm, ?_⟩
    have : m.idx = 2 := by simpa using hidx
    cases m <;> first | rfl | (exfalso; simp [Severity.idx] at this)
  · exact (check_consensus_cases _ (by decide)).2.2 (by decide)

/-- The vote loop computes the two sums over the successful verdicts. -/
theorem voteStep_foldl (weights : List (String × ℚ)) (results : List ReviewResult) :
    ∀ init : ℚ × ℚ,
      results.foldl (voteStep weights) init =
        (init.1 + ((results.filter (·.success)).map
            (fun r => (weightLookup weights r.adapter_name).getD 1 * (r.severity.idx : ℚ))).sum,
         init.2 + ((results.filter (·.success)).map
            (fun r => (weightLookup weights r.adapter_name).getD 1)).sum) := by
  induction results with
  | nil => intro init; simp
  | cons r rest ih =>
    intro init
    cases hs : r.success with
    | false => simp [List.foldl, voteStep, hs, List.filter, ih]
    | true =>
      have hfc : (r :: rest).filter (·.success) = r :: rest.filter (·.success) := by
        simp [List.filter_cons, hs]
      rw [List.foldl_cons, ih, hfc, List.map_cons, List.map_cons, List.sum_cons,
        List.sum_cons]
      simp only [voteStep, hs, Bool.not_true, Bool.false_eq_true, if_false,
        Prod.mk.injEq]
      constructor <;> ring

/-- Python round is a nearest integer, and at an exact tie it lands on an
even integer. -/
theorem pyRound_char (q : ℚ) :
    |(pyRound q : ℚ) - q| ≤ 1/2 ∧ (|(pyRound q : ℚ) - q| = 1/2 → Even (pyRound q)) := by
  have h1 : ((⌊q⌋ : ℤ) : ℚ) ≤ q := Int.floor_le q
  have h2 : q < (⌊q⌋ : ℚ) + 1 := Int.lt_floor_add_one q
  simp only [pyRound]
  split_ifs with ha hb hc
  · refine ⟨by rw [abs_le]; constructor <;> linarith, fun heq => ?_⟩
    rcases (abs_eq (by norm_num : (0:ℚ) ≤ 1/2)).mp heq with h | h <;> linarith
  · rw [not_lt] at ha
    refine ⟨by rw [abs_le]; push_cast; constructor <;> linarith, fun heq => ?_⟩
    rcases (abs_eq (by norm_num : (0:ℚ) ≤ 1/2)).mp heq with h | h <;>
      push_cast at h <;> linarith
  · rw [not_lt] at ha hb
    exact ⟨by rw [abs_le]; constructor <;> linarith, fun _ => hc⟩
  · rw [not_lt] at ha hb
    exact ⟨by rw [abs_le]; push_cast; constructor <;> linarith,
      fun _ => (Int.even_add_one).mpr hc⟩

/-- C9 (amended): the weighted-vote fallback equals the spec-side
formulation with list sums — severity→integer map OK=0 … CRITICAL=4,
weight-averaged score over successful verdicts with missing weights
defaulting to 1.0, rounded half-to-even, mapped back — and the rounding
it uses is genuinely half-to-even: it never strays more than 1/2 from the
average, and at an exact tie it lands on an even integer (not upward). -/
theorem weighted_vote_matches_spec (cfg : Config) (results : List ReviewResult) :
    weightedVote cfg results = specWeightedVote cfg results ∧
    (∀ q : ℚ, |(pyRound q : ℚ) - q| ≤ 1/2 ∧
      (|(pyRound q : ℚ) - q| = 1/2 → Even (pyRound q))) := by
  refine ⟨?_, pyRound_char⟩
  simp only [weightedVote, specWeightedVote, voteStep_foldl, zero_add]

/-- C9 (witness): the amended vote equality at the tie input OK/LOW, with
the tie landing on the even integer 0. -/
theorem weighted_vote_matches_spec_witness :
    weightedVote {} [{ adapter_name := "a", severity := .OK, issues := [],
                       raw_response := "" },
                     { adapter_name := "b", severity := .LOW, issues := [],
                       raw_response := "" }] =
      specWeightedVote {} [{ adapter_name := "a", severity := .OK, issues := [],
                             raw_response := "" },
                           { adapter_name := "b", severity := .LOW, issues := [],
                             raw_response := "" }] ∧
    Even (pyRound (1/2)) := by
  refine ⟨(weighted_vote_matches_spec {} _).1, ?_⟩
  exact ((weighted_vote_matches_spec {} []).2 (1/2)).2 (by norm_num [pyRound])

/-- Draining the positions 0 … n−1 of a list through `filterMap`
reproduces the list. -/
theorem range_filterMap_getElem {α : Type} (l : List α) :
    (List.range l.length).filterMap (fun i => l[i]?) = l := by
  induction l using List.reverseRecOn with
  | nil => rfl
  | append_singleton l a ih =>
    rw [List.length_append, List.length_singleton, List.range_succ,
      List.filterMap_append]
    have h1 : (List.range l.length).filterMap (fun i => (l ++ [a])[i]?) =
        (List.range l.length).filterMap (fun i => l[i]?) := by
      apply List.filterMap_congr
      intro i hi
      rw [List.mem_range] at hi
      rw [List.getElem?_append_left hi]
    have h2 : (l ++ [a])[l.length]? = some a := by
      rw [List.getElem?_append_right (le_refl _)]
      simp
    simp [h1, ih, h2]

/-- C5 (amended): the fan-out produces exactly one verdict per input
adapter — the external verdicts are a permutation of each adapter's
verdict on the assembled prompt, failed ones included — but the returned
sequence lists them in thread-completion order after the inline
self-review verdict, not in input-adapter order. -/
theorem fan_out_one_verdict_per_adapter
    (cfg : Config) (q : QuotaState) (now : Int)
    (selfMessage externalPrompt : String)
    (gemAvail copAvail : Bool) (gemReview copReview : String → ReviewResult)
    (order : List Nat) (ctx : Context)
    (hperm : order.Perm (List.range
      (initExternalAdapters cfg q now gemAvail copAvail gemReview copReview).1.length)) :
    ∃ externals,
      (runParallelReviews cfg q now selfMessage externalPrompt gemAvail copAvail
          gemReview copReview order ctx).1 =
        (if cfg.include_self_review.getD true then [selfReviewResult selfMessage]
         else []) ++ externals ∧
      externals =
        (order.filterMap (fun i =>
          (initExternalAdapters cfg q now gemAvail copAvail gemReview copReview).1[i]?)).map
          (fun a => a.review (fullExternalPrompt externalPrompt ctx)) ∧
      externals.Perm
        ((initExternalAdapters cfg q now gemAvail copAvail gemReview copReview).1.map
          (fun a => a.review (fullExternalPrompt externalPrompt ctx))) := by
  have hperm2 : (order.filterMap (fun i =>
      (initExternalAdapters cfg q now gemAvail copAvail gemReview copReview).1[i]?)).Perm
      (initExternalAdapters cfg q now gemAvail copAvail gemReview copReview).1 := by
    have h := List.Perm.filterMap (fun i =>
      (initExternalAdapters cfg q now gemAvail copAvail gemReview copReview).1[i]?) hperm
    rwa [range_filterMap_getElem] at h
  cases hA : (initExternalAdapters cfg q now gemAvail copAvail gemReview copReview).1.isEmpty with
  | true =>
    have hnil : (initExternalAdapters cfg q now gemAvail copAvail gemReview copReview).1 = [] :=
      List.isEmpty_iff.mp hA
    refine ⟨[], ?_, ?_, ?_⟩
    · simp only [runParallelReviews, hA, if_true, List.append_nil]
    · have : order = [] := by
        have h0 := hperm
        rw [hnil] at h0
        simpa using h0.eq_nil
      simp [this]
    · rw [hnil]; simp
  | false =>
    refine ⟨_, ?_, rfl, List.Perm.map _ hperm2⟩
    simp only [runParallelReviews, hA, Bool.false_eq_true, if_false]

/-- C5 (witness): the fan-out theorem applied at a concrete two-adapter
configuration with completion order `[1, 0]`. -/
theorem fan_out_one_verdict_per_adapter_witness :
    ∃ externals : List ReviewResult,
      externals.Perm
        ((initExternalAdapters { include_self_review := some false } [] 0 true true
            (fun _ => { adapter_name := "gemini", severity := .OK, issues := [],
                        raw_response := "g" })
            (fun _ => { adapter_name := "copilot", severity := .OK, issues := [],
                        raw_response := "c" })).1.map
          (fun a => a.review (fullExternalPrompt ""
            { session_id := "s", todos := [], combined_intent := "",
              original_request := "", message_count := 0, cwd := "" }))) := by
  obtain ⟨e, _, _, hp⟩ := fan_out_one_verdict_per_adapter
    { include_self_review := some false } [] 0 "" "" true true
    (fun _ => { adapter_name := "gemini", severity := .OK, issues := [],
                raw_response := "g" })
    (fun _ => { adapter_name := "copilot", severity := .OK, issues := [],
                raw_response := "c" })
    [1, 0]
    { session_id := "s", todos := [], combined_intent := "",
      original_request := "", message_count := 0, cwd := "" }
    (by decide)
  exact ⟨e, hp⟩

/-- Valid code points survive the Char round trip. -/
theorem charToNat_ofNat {n : Nat} (h : n < 55296) : (Char.ofNat n).toNat = n := by
  unfold Char.ofNat
  rw [dif_pos (Or.inl h)]
  rfl

/-- ASCII upper-casing is idempotent on characters. -/
theorem asciiUpperChar_idem (c : Char) :
    asciiUpperChar (asciiUpperChar c) = asciiUpperChar c := by
  by_cases h : 97 ≤ c.toNat ∧ c.toNat ≤ 122
  · have hval : c.toNat - 32 < 55296 := by omega
    have h1 : asciiUpperChar c = Char.ofNat (c.toNat - 32) := by
      simp [asciiUpperChar, h]
    rw [h1]
    have h2 : (Char.ofNat (c.toNat - 32)).toNat = c.toNat - 32 := charToNat_ofNat hval
    simp only [asciiUpperChar, h2]
    rw [if_neg (by omega)]
  · have h1 : asciiUpperChar c = c := by simp [asciiUpperChar, h]
    rw [h1, h1]

/-- ASCII upper-casing is idempotent on strings. -/
theorem asciiUpper_idem (s : String) : asciiUpper (asciiUpper s) = asciiUpper s := by
  show String.mk ((s.data.map asciiUpperChar).map asciiUpperChar)
      = String.mk (s.data.map asciiUpperChar)
  rw [List.map_map]
  congr 1
  exact List.map_congr_left (fun c _ => asciiUpperChar_idem c)

/-- A well-shaped issue entry parses without an exception. -/
theorem parseIssueItem_ok {item : Json} (h : wellShapedIssue item = true) :
    ∃ v, parseIssueItem item = Except.ok v := by
  cases item with
  | obj fields =>
    cases hsev : lookupField fields "severity" with
    | none => exact ⟨_, by simp only [parseIssueItem]; rw [hsev]; rfl⟩
    | some v =>
      cases v with
      | str s => exact ⟨_, by simp only [parseIssueItem]; rw [hsev]; rfl⟩
      | null => simp [wellShapedIssue, hsev] at h
      | bool b => simp [wellShapedIssue, hsev] at h
      | num q => simp [wellShapedIssue, hsev] at h
      | arr items => simp [wellShapedIssue, hsev] at h
      | obj kvs => simp [wellShapedIssue, hsev] at h
  | null => simp [wellShapedIssue] at h
  | bool b => simp [wellShapedIssue] at h
  | num q => simp [wellShapedIssue] at h
  | str s => simp [wellShapedIssue] at h
  | arr items => simp [wellShapedIssue] at h

/-- A list of well-shaped issue entries parses without an exception. -/
theorem parseIssueList_ok {items : List Json}
    (h : ∀ i ∈ items, wellShapedIssue i = true) :
    ∃ l, parseIssueList items = Except.ok l := by
  induction items with
  | nil => exact ⟨[], rfl⟩
  | cons i rest ih =>
    obtain ⟨v, hv⟩ := parseIssueItem_ok (h i (by simp))
    obtain ⟨l, hl⟩ := ih (fun j hj => h j (by simp [hj]))
    refine ⟨v :: l, ?_⟩
    unfold parseIssueList
    rw [hv, hl]
    rfl

/-- C4 (amended): the parser never raises on a reply whose JSON decoding
fails (the keyword fallback answers, successfully) nor on a decoded reply
that is a well-shaped object; severity strings are parsed
case-insensitively, and any unknown severity string maps to OK.  (A reply
decoding to a non-object JSON value raises AttributeError, per the
counterexample.) -/
theorem parse_response_amended :
    (∀ name response : String,
      parseResponse name response none = Except.ok (parseTextResponse name response) ∧
      (parseTextResponse name response).success = true) ∧
    (∀ (name response : String) (j : Json), wellShaped j = true →
      ∃ v, parseResponse name response (some j) = Except.ok v ∧ v.success = true) ∧
    (∀ s : String, Severity.fromString s = Severity.fromString (asciiUpper s)) ∧
    (∀ s : String, asciiUpper s ≠ "OK" → asciiUpper s ≠ "LOW" →
      asciiUpper s ≠ "MEDIUM" → asciiUpper s ≠ "HIGH" → asciiUpper s ≠ "CRITICAL" →
      Severity.fromString s = .OK) := by
  refine ⟨fun name response => ⟨rfl, rfl⟩, ?_, ?_, ?_⟩
  · intro name response j h
    cases j with
    | obj fields =>
      simp only [wellShaped, Bool.and_eq_true] at h
      obtain ⟨hsevOk, hissOk⟩ := h
      simp only [parseResponse]
      cases hsev : lookupField fields "severity" with
      | none =>
        simp only [Option.getD_none]
        cases hiss : lookupField fields "issues" with
        | none => exact ⟨_, rfl, rfl⟩
        | some iv =>
          cases iv with
          | arr items =>
            rw [hiss] at hissOk
            obtain ⟨l, hl⟩ := parseIssueList_ok
              (by simpa [List.all_eq_true] using hissOk)
            simp only [Option.getD_some, hl]
            exact ⟨_, rfl, rfl⟩
          | str s2 =>
            rw [hiss] at hissOk
            simp only [Option.getD_some]
            rw [if_pos (by simpa using hissOk)]
            exact ⟨_, rfl, rfl⟩
          | obj kvs =>
            rw [hiss] at hissOk
            simp only [Option.getD_some]
            rw [if_pos (by simpa using hissOk)]
            exact ⟨_, rfl, rfl⟩
          | null => rw [hiss] at hissOk; simp at hissOk
          | bool b => rw [hiss] at hissOk; simp at hissOk
          | num q => rw [hiss] at hissOk; simp at hissOk
      | some sv =>
        cases sv with
        | str s =>
          simp only [Option.getD_some]
          cases hiss : lookupField fields "issues" with
          | none => exact ⟨_, rfl, rfl⟩
          | some iv =>
            cases iv with
            | arr items =>
              rw [hiss] at hissOk
              obtain ⟨l, hl⟩ := parseIssueList_ok
                (by simpa [List.all_eq_true] using hissOk)
              simp only [Option.getD_some, hl]
              exact ⟨_, rfl, rfl⟩
            | str s2 =>
              rw [hiss] at hissOk
              simp only [Option.getD_some]
              rw [if_pos (by simpa using hissOk)]
              exact ⟨_, rfl, rfl⟩
            | obj kvs =>
              rw [hiss] at hissOk
              simp only [Option.getD_some]
              rw [if_pos (by simpa using hissOk)]
              exact ⟨_, rfl, rfl⟩
            | null => rw [hiss] at hissOk; simp at hissOk
            | bool b => rw [hiss] at hissOk; simp at hissOk
            | num q => rw [hiss] at hissOk; simp at hissOk
        | null => rw [hsev] at hsevOk; simp at hsevOk
        | bool b => rw [hsev] at hsevOk; simp at hsevOk
        | num q => rw [hsev] at hsevOk; simp at hsevOk
        | arr a => rw [hsev] at hsevOk; simp at hsevOk
        | obj o => rw [hsev] at hsevOk; simp at hsevOk
    | null => simp [wellShaped] at h
    | bool b => simp [wellShaped] at h
    | num q => simp [wellShaped] at h
    | str s => simp [wellShaped] at h
    | arr a => simp [wellShaped] at h
  · intro s
    simp only [Severity.fromString, asciiUpper_idem]
  · intro s h1 h2 h3 h4 h5
    simp [Severity.fromString, h1, h2, h3, h4, h5]

/-- C4 (witness): the amended parser guarantees at concrete inputs — a
non-JSON reply takes the fallback, a well-shaped object parses, and the
severity parser is case-insensitive with unknown strings mapping to OK. -/
theorem parse_response_amended_witness :
    parseResponse "g" "no json here" none =
      Except.ok (parseTextResponse "g" "no json here") ∧
    (∃ v, parseResponse "g" "x"
        (some (Json.obj [("severity", Json.str "high")])) = Except.ok v ∧
      v.success = true) ∧
    Severity.fromString "Critical" = Severity.fromString (asciiUpper "Critical") ∧
    Severity.fromString "weird" = .OK :=
  ⟨(parse_response_amended.1 "g" "no json here").1,
   parse_response_amended.2.1 "g" "x" _ (by decide),
   parse_response_amended.2.2.1 "Critical",
   parse_response_amended.2.2.2 "weird" (by decide) (by decide) (by decide)
     (by decide) (by decide)⟩

/-- C10 (amended): with no `enabled_adapters` entry (in particular with
the config file missing), adapter selection behaves exactly as if
`["gemini", "copilot"]` — not the empty list — had been configured. -/
theorem missing_enabled_adapters_defaults
    (cfg : Config) (q : QuotaState) (now : Int) (gemAvail copAvail : Bool)
    (gemReview copReview : String → ReviewResult)
    (h : cfg.enabled_adapters = none) :
    initExternalAdapters cfg q now gemAvail copAvail gemReview copReview =
      initExternalAdapters { cfg with enabled_adapters := some ["gemini", "copilot"] }
        q now gemAvail copAvail gemReview copReview := by
  simp only [initExternalAdapters, h, Option.getD_none, Option.getD_some]

/-- C10 (witness): the default substitution at the missing config. -/
theorem missing_enabled_adapters_defaults_witness :
    initExternalAdapters missingConfig [] 0 true true
        (fun _ => { adapter_name := "gemini", severity := .OK, issues := [],
                    raw_response := "g" })
        (fun _ => { adapter_name := "copilot", severity := .OK, issues := [],
                    raw_response := "c" }) =
      initExternalAdapters
        { missingConfig with enabled_adapters := some ["gemini", "copilot"] } [] 0 true true
        (fun _ => { adapter_name := "gemini", severity := .OK, issues := [],
                    raw_response := "g" })
        (fun _ => { adapter_name := "copilot", severity := .OK, issues := [],
                    raw_response := "c" }) :=
  missing_enabled_adapters_defaults missingConfig [] 0 true true _ _ rfl

/-- The response object built by `_build_output` always has exactly the
two keys, with `continue` the negation of the CRITICAL test. -/
theorem buildOutput_shape (results : List ReviewResult) (dr : Option DebateRound) :
    ∃ b msg, (buildOutput results dr).1 =
        Json.obj [("continue", Json.bool b), ("systemMessage", Json.str msg)] ∧
      (b = false ↔ (buildOutput results dr).2 = Severity.CRITICAL) := by
  refine ⟨_, _, rfl, ?_⟩
  by_cases hc : finalSeverityOf results dr = Severity.CRITICAL <;> simp [buildOutput, hc]

/-- C1: whatever the invocation — stdin parse failure, no completion
edge, exhausted review budget, or a full review run — the hook's answer
is a JSON object with exactly the keys `continue` and `systemMessage`,
`continue` is a boolean, and it is false exactly when the run computed a
CRITICAL final severity. -/
theorem hook_output_contract (env : Env) (inp : Option HookInput) :
    ∃ b msg, (mainModel env inp).1 =
        Json.obj [("continue", Json.bool b), ("systemMessage", Json.str msg)] ∧
      jsonKeys (mainModel env inp).1 = ["continue", "systemMessage"] ∧
      (b = false ↔ (mainModel env inp).2 = some Severity.CRITICAL) := by
  cases inp with
  | none => exact ⟨true, "[완료검토] 입력 파싱 실패", rfl, rfl, by simp [mainModel]⟩
  | some h =>
    simp only [mainModel]
    cases hj : (detectCompletion env.prevTodo h.todos env.now).1.just_completed with
    | false =>
      simp only [orchestrate, hj, Bool.not_false, if_true]
      exact ⟨true, "", rfl, rfl, by simp⟩
    | true =>
      simp only [orchestrate, hj, Bool.not_true, Bool.false_eq_true, if_false]
      by_cases h2 : ((getCompletionReviewCount
          (detectCompletion env.prevTodo h.todos env.now).2 : Int) ≥
          env.cfg.max_reviews.getD 3)
      · rw [if_pos h2]
        exact ⟨true, _, rfl, rfl, by simp⟩
      · rw [if_neg h2]
        obtain ⟨b, msg, hout, hiff⟩ :=
          buildOutput_shape (finalResultsOf env h) (debateResultOf env h)
        refine ⟨b, msg, hout, ?_, ?_⟩
        · rw [hout]; rfl
        · rw [hiff]
          constructor
          · intro hfs; rw [hfs]
          · intro hfs; exact Option.some_injective _ hfs
